import Mathlib

/-!
# ltc-score (`shit.c`): schedule table, frame rendering, wake coordination

A shallow embedding of the C program.  Globals of the C file become explicit
arguments or fields of a state record.

* `partmap` is an array of `NR_OF_MINUTES` pointers into `parts`.  A pointer is
  modelled by `Ptr := Option Nat`: `none` is `NULL`, `some i` is `&parts[i]`.
  The array is a list of exactly `NR_OF_MINUTES` slots; an index outside
  `0 .. NR_OF_MINUTES - 1` is outside the array object.
* A store outside the array cannot change a slot of the array; it is recorded
  in `BuildState.oob` and the loop goes on.  A load outside the array has no
  value the program determines; it ends the run with a `Fault`.
* C `int` values are `Int` (no value here comes near the 32-bit limits).
-/

namespace LtcScore

set_option maxRecDepth 100000

/-! ## Data model -/

/-- Number of records in `parts` (`#define NR_OF_PARTS 12`). -/
def NR_OF_PARTS : Nat := 12

/-- Number of slots of `partmap` (`#define NR_OF_MINUTES 110`). -/
def NR_OF_MINUTES : Nat := 110

/-- Record of the score, `struct event`. -/
structure event where
  id : Int
  start : Int
  sectionName : String
  notes : String
  endsWith : String
deriving DecidableEq, Repr

/-- Pointer into `parts`: `none` is `NULL`, `some i` is `&parts[i]`. -/
abbrev Ptr := Option Nat

/-- The static table `parts[NR_OF_PARTS]`. -/
def parts : List event :=
  [ ⟨0, 0, "permutation with overlap", "karplus direct to fft", "cont."⟩,
    ⟨1, 8, "lars + candid + olive", "silence", "cont."⟩,
    ⟨2, 11, "around one pitch", "silence", "cont."⟩,
    ⟨3, 15, "michel + candid + drums", "silence", "cont."⟩,
    ⟨4, 23, "lisa + michel", "maybe some texture", "cont."⟩,
    ⟨5, 31, "benoit + morgan", "silence", "BREAK"⟩,
    ⟨6, 36, "benoit + morgan again", "silence", "cont."⟩,
    ⟨7, 40, "free at last", "guitar -> amp -> fft", "cont."⟩,
    ⟨8, 50, "textural midi piano", "come in with texture in the end", "METAL"⟩,
    ⟨9, 58, "ambivalent metal", "chug chug", "cont."⟩,
    ⟨10, 64, "soft intense, michel + morgan", "noise", "cont."⟩,
    ⟨11, 70, "end", "end", "end"⟩ ]

/-- The value `ps[i].start`. -/
def startAt (ps : List event) (i : Nat) : Int :=
  match ps[i]? with
  | some e => e.start
  | none => 0

/-! ## The table-building loop of `main` -/

/-- State of the table-building loop: the `partmap` array and the indices of the
stores that fell outside it, in program order. -/
structure BuildState where
  partmap : List Ptr
  oob : List Int
deriving DecidableEq, Repr

/-- The global `partmap` before `main` runs: zero-initialised, every slot `NULL`. -/
def partmap0 : List Ptr := List.replicate NR_OF_MINUTES none

/-- The assignment `partmap[j] = p`. -/
def store (st : BuildState) (j : Int) (p : Ptr) : BuildState :=
  if 0 ≤ j ∧ j < (NR_OF_MINUTES : Int) then
    { st with partmap := st.partmap.set j.toNat p }
  else
    { st with oob := st.oob ++ [j] }

/-- The inner loop `for (j = ..; j < ends; j++) partmap[j] = &parts[i];` started at `j`
and run for `n` iterations. -/
def fillFrom (i : Nat) : Int → Nat → BuildState → BuildState
  | _, 0, st => st
  | j, n + 1, st => fillFrom i (j + 1) n (store st j (some i))

/-- The inner loop from its current index `j` up to `ends`: it runs `ends - j` times, or
not at all when `ends ≤ j`. -/
def fill (i : Nat) (ends j : Int) (st : BuildState) : BuildState :=
  fillFrom i j (ends - j).toNat st

/-- Body of the outer loop for index `i`. -/
def buildStep (ps : List event) (st : BuildState) (i : Nat) : BuildState :=
  let ends : Int := if i + 1 = ps.length then 120 else startAt ps (i + 1)
  let starts : Int := startAt ps i
  fill i ends starts st

/-- The table-building loop of `main`, `for (i = 0; i < NR_OF_PARTS; i++)`, as a function
of the segment list (whose length plays the part of `NR_OF_PARTS`). -/
def build (ps : List event) : BuildState :=
  (List.range ps.length).foldl (buildStep ps) ⟨partmap0, []⟩

/-- Upper end of the interval that the loop fills for segment `i`: the next start,
or 120 for the last segment. -/
def endsAt (ps : List event) (i : Nat) : Int :=
  if i + 1 = ps.length then 120 else startAt ps (i + 1)

/-- Minute `m` lies in the interval the loop fills for segment `i`. -/
def covers (ps : List event) (i m : Nat) : Prop :=
  startAt ps i ≤ (m : Int) ∧ (m : Int) < endsAt ps i

/-- A segment list with a gap or an overlap: the first start is not 0, or some start is
not strictly greater than the one before it. -/
def gapOrOverlap (ps : List event) : Prop :=
  startAt ps 0 ≠ 0 ∨ ∃ i, i + 1 < ps.length ∧ ¬ startAt ps i < startAt ps (i + 1)

/-! ## Decoded frames and the display -/

/-- The `double` of `frame.volume`, kept as its 64-bit pattern: the program only hands
it to the formatter. -/
abbrev Double := Nat

/-- Result of `ltc_frame_to_time`: `SMPTETimecode` (the fields the program reads). -/
structure SMPTETimecode where
  hours : Int
  mins : Int
  secs : Int
  frame : Int
deriving DecidableEq, Repr

/-- A decoded frame, `LTCFrameExt`, together with the time `ltc_frame_to_time` gives for
it (that conversion belongs to the external decoding library). -/
structure LTCFrameExt where
  stime : SMPTETimecode
  dfbit : Bool
  volume : Double
deriving DecidableEq, Repr

/-- Argument of a formatted print. -/
inductive Arg where
  | int (n : Int)
  | chr (c : Char)
  | str (s : String)
  | dbl (v : Double)
deriving DecidableEq, Repr

/-- A call to the display library, in program order. -/
inductive Cmd where
  | erase
  | attron (pair : Nat)
  | attroff (pair : Nat)
  | mvprintw (y x : Nat) (fmt : String) (args : List Arg)
  | refresh
  | fflush
deriving DecidableEq, Repr

/-- A memory fault: a load of `partmap[idx]` outside the array, or a dereference of the
null pointer found in `partmap[idx]`, or of a pointer that is not into `parts`. -/
inductive Fault where
  | outOfBounds (idx : Int)
  | nullDeref (idx : Int)
  | wildDeref (idx : Int)
deriving DecidableEq, Repr

deriving instance DecidableEq for Except

/-- The load `partmap[i]`. -/
def load (pm : List Ptr) (i : Int) : Except Fault Ptr :=
  if 0 ≤ i ∧ i < (NR_OF_MINUTES : Int) then
    match pm[i.toNat]? with
    | some p => .ok p
    | none => .error (.outOfBounds i)
  else .error (.outOfBounds i)

/-- The dereference `partmap[i]->...` of the pointer `p` loaded from slot `i`. -/
def deref (ps : List event) (i : Int) (p : Ptr) : Except Fault event :=
  match p with
  | none => .error (.nullDeref i)
  | some k =>
    match ps[k]? with
    | some e => .ok e
    | none => .error (.wildDeref i)

/-- What one iteration of the loop of `my_decoder_read` does: the display calls it made,
and the fault that ended it, if any. -/
structure FrameResult where
  out : List Cmd
  fault : Option Fault
deriving DecidableEq, Repr

/-- `int currentMin = stime.mins + (stime.hours * 60);` -/
def currentMin (f : LTCFrameExt) : Int :=
  f.stime.mins + f.stime.hours * 60

/-- The range check `currentMin <= 120 && currentMin >= 0`. -/
def inRange (m : Int) : Prop := m ≤ 120 ∧ m ≥ 0

instance (m : Int) : Decidable (inRange m) := by
  unfold inRange
  infer_instance

/-- The title and the timecode clock line: the display calls made for every frame before
the range check. -/
def clockCmds (f : LTCFrameExt) : List Cmd :=
  [ .erase,
    .attron 3,
    .mvprintw 0 0 "%s" [.str "RT60 - TIMECODE"],
    .attroff 3,
    .mvprintw 1 0 "%02d:%02d:%02d%c%02d | %.1fdB\n"
      [.int f.stime.hours, .int f.stime.mins, .int f.stime.secs,
       .chr (if f.dfbit then '.' else ':'), .int f.stime.frame, .dbl f.volume] ]

/-- The countdown line with its highlight, made when `partmap[currentMin]` and
`partmap[currentMin + 1]` differ. -/
def countdownCmds (secs : Int) : List Cmd :=
  (if secs.tmod 2 = 0 then [.attron 1] else []) ++
    [.mvprintw 2 0 "time remaining: %02d " [.int (60 - secs)], .attroff 1]

/-- The section, notes and ends-with lines of record `e`. -/
def sectionCmds (e : event) : List Cmd :=
  [ .mvprintw 3 0 "section: %s" [.str e.sectionName],
    .mvprintw 4 0 "notes: %s" [.str e.notes],
    .attron 2,
    .mvprintw 5 0 "ends with: %s" [.str e.endsWith],
    .attroff 2 ]

/-- Body of the `while` loop of `my_decoder_read` for the frame `f` just read. -/
def frameBody (ps : List event) (pm : List Ptr) (f : LTCFrameExt) : FrameResult :=
  let m := currentMin f
  if inRange m then
    match load pm m with
    | .error e => ⟨clockCmds f, some e⟩
    | .ok p =>
      match load pm (m + 1) with
      | .error e => ⟨clockCmds f, some e⟩
      | .ok q =>
        let cd := if p ≠ q then countdownCmds f.stime.secs else []
        match deref ps m p with
        | .error e => ⟨clockCmds f ++ cd, some e⟩
        | .ok e => ⟨clockCmds f ++ cd ++ sectionCmds e, none⟩
  else ⟨clockCmds f, none⟩

/-- Non-blocking pop of the head of the decoder queue, `ltc_decoder_read`: `none` is the
return value 0 (queue empty). -/
def ltc_decoder_read (q : List LTCFrameExt) : Option (LTCFrameExt × List LTCFrameExt) :=
  match q with
  | [] => none
  | f :: r => some (f, r)

/-- Result of one call of `my_decoder_read`: the display calls, the frames it read, the
queue it left, and the fault that ended it, if any. -/
structure DrainResult where
  out : List Cmd
  processed : List LTCFrameExt
  queue : List LTCFrameExt
  fault : Option Fault
deriving DecidableEq, Repr

/-- The function `my_decoder_read`: read frames while the queue gives one, run the body on
each, then `refresh` and `fflush`.  A fault in the body ends the run there. -/
def my_decoder_read (ps : List event) (pm : List Ptr) : List LTCFrameExt → DrainResult
  | [] => ⟨[.refresh, .fflush], [], [], none⟩
  | f :: q =>
    let r := frameBody ps pm f
    match r.fault with
    | some e => ⟨r.out, [f], q, some e⟩
    | none =>
      let d := my_decoder_read ps pm q
      ⟨r.out ++ d.out, f :: d.processed, d.queue, d.fault⟩

/-! ## Wake coordination: `process`, `main_loop`, `catchsig`, `jack_shutdown` -/

/-- State of `ltc_thread_lock` as the two threads see it: `held` means locked by the
thread running `main_loop` (`process` takes the lock only inside its own call). -/
inductive Mutex where
  | free
  | held
deriving DecidableEq, Repr

/-- Where the thread running `main_loop` stands: before `pthread_mutex_lock`; at the test
`while (keep_running)`; at the call of `my_decoder_read`; suspended inside
`pthread_cond_wait` (the lock released); woken and about to take the lock again; after the
final `pthread_mutex_unlock`; or stopped by a memory fault. -/
inductive PC where
  | entry
  | check
  | drain
  | waiting
  | woken
  | done
  | crashed
deriving DecidableEq, Repr

/-- The shared state of the two threads and of the signal handler. -/
structure Sync where
  keep_running : Int
  mutex : Mutex
  pc : PC
  queue : List LTCFrameExt
  popped : List LTCFrameExt
  screen : List Cmd
  fault : Option Fault
  sighup : Bool
deriving DecidableEq, Repr

/-- What a call leaves behind outside the shared state. -/
inductive Event where
  | cond_signal
  | stderr (msg : String)
deriving DecidableEq, Repr

/-- The call `pthread_cond_signal(&data_ready)`: it wakes the thread suspended in
`pthread_cond_wait`, and does nothing when no thread is suspended there. -/
def pthread_cond_signal (st : Sync) : Sync :=
  if st.pc = .waiting then { st with pc := .woken } else st

/-- The call `pthread_mutex_trylock`: return value 0 and the lock taken when it was free,
a non-zero value (`EBUSY`) and no change when it was held.  It never waits. -/
def pthread_mutex_trylock (m : Mutex) : Int × Mutex :=
  match m with
  | .free => (0, .held)
  | .held => (16, .held)

/-- The notification part of `process`: the `trylock` block and `return 0`. -/
def notify (st : Sync) : Int × Sync × List Event :=
  let r := pthread_mutex_trylock st.mutex
  if r.1 = 0 then
    let st1 := pthread_cond_signal { st with mutex := r.2 }
    (0, { st1 with mutex := .free }, [.cond_signal])
  else
    (0, st, [])

/-- The audio callback `process`: hand the samples to the decoder, then notify.  The
decoder is external; `ltc_decoder_write_float` stands for what its call does to the frame
queue with the samples of this period. -/
def process (ltc_decoder_write_float : List LTCFrameExt → List LTCFrameExt) (st : Sync) :
    Int × Sync × List Event :=
  notify { st with queue := ltc_decoder_write_float st.queue }

/-- The handler `jack_shutdown`. -/
def jack_shutdown (st : Sync) : Sync × List Event :=
  (pthread_cond_signal { st with keep_running := 0 },
   [.stderr "recv. shutdown request from jackd.\n", .cond_signal])

/-- The signal handler `catchsig`. -/
def catchsig (st : Sync) : Sync × List Event :=
  (pthread_cond_signal { st with sighup := true, keep_running := 0 },
   [.stderr "caught signal - shutting down.\n", .cond_signal])

/-- One step of the thread running `main_loop`. -/
def main_loop_step (ps : List event) (pm : List Ptr) (st : Sync) : Sync :=
  match st.pc with
  | .entry => { st with mutex := .held, pc := .check }
  | .check =>
    if st.keep_running ≠ 0 then { st with pc := .drain }
    else { st with mutex := .free, pc := .done }
  | .drain =>
    let d := my_decoder_read ps pm st.queue
    match d.fault with
    | some e =>
      { st with queue := d.queue, popped := st.popped ++ d.processed,
                screen := st.screen ++ d.out, fault := some e, pc := .crashed }
    | none =>
      { st with queue := d.queue, popped := st.popped ++ d.processed,
                screen := st.screen ++ d.out, mutex := .free, pc := .waiting }
  | .waiting => st
  | .woken => { st with mutex := .held, pc := .check }
  | .done => st
  | .crashed => st

/-- Run the thread of `main_loop` for `n` steps. -/
def main_loop_run (ps : List event) (pm : List Ptr) : Nat → Sync → Sync
  | 0, st => st
  | n + 1, st => main_loop_run ps pm n (main_loop_step ps pm st)

/-! ## `main` after option parsing -/

/-- What the external calls of the initialization return. -/
structure InitEnv where
  jack_client_open : Bool
  ltc_decoder_create : Bool
  jack_port_register : Bool
  mlockall : Int
  jack_activate : Int
deriving DecidableEq, Repr

/-- The function `init_jack`: -1 when `jack_client_open` gives `NULL`, else 0. -/
def init_jack (env : InitEnv) : Int :=
  if env.jack_client_open then 0 else -1

/-- The function `jack_portsetup`: -1 when the decoder cannot be created or the port
cannot be registered, else 0. -/
def jack_portsetup (env : InitEnv) : Int :=
  if ¬ env.ltc_decoder_create then -1
  else if ¬ env.jack_port_register then -1
  else 0

/-- The stages of `main` after the table is built. -/
inductive Stage where
  | init_jack
  | jack_portsetup
  | mlockall
  | warn_mlock
  | jack_activate
  | err_activate
  | jack_port_connect
  | install_handlers
  | main_loop
  | jack_client_close
  | ltc_decoder_free
  | bye
deriving DecidableEq, Repr

/-- The cleanup at label `out`. -/
def outStages (env : InitEnv) : List Stage :=
  (if env.jack_client_open then [.jack_client_close] else []) ++ [.ltc_decoder_free, .bye]

/-- The function `main` from `init_jack` on, `main_loop` taken to have returned: the stages
it runs, and its return value. -/
def main (env : InitEnv) : List Stage × Int :=
  if init_jack env ≠ 0 then
    ([.init_jack] ++ outStages env, 0)
  else if jack_portsetup env ≠ 0 then
    ([.init_jack, .jack_portsetup] ++ outStages env, 0)
  else
    let lock : List Stage := if env.mlockall ≠ 0 then [.mlockall, .warn_mlock] else [.mlockall]
    if env.jack_activate ≠ 0 then
      ([.init_jack, .jack_portsetup] ++ lock ++ [.jack_activate, .err_activate] ++
        outStages env, 0)
    else
      ([.init_jack, .jack_portsetup] ++ lock ++
        [.jack_activate, .jack_port_connect, .install_handlers, .main_loop] ++
        outStages env, 0)

/-! ## Concrete inputs -/

/-- A segment list with a gap: its only segment starts at minute 2. -/
def gapList : List event := [⟨0, 2, "A", "", ""⟩]

/-- A segment list with an overlap: starts 0, 8, 5. -/
def overlapList : List event := [⟨0, 0, "A", "", ""⟩, ⟨1, 8, "B", "", ""⟩, ⟨2, 5, "C", "", ""⟩]

/-- The `partmap` array that `main` has built when the frames arrive. -/
def builtPartmap : List Ptr := (build parts).partmap

/-- Frame 00:35:58:00. -/
def frame_00_35_58 : LTCFrameExt := ⟨⟨0, 35, 58, 0⟩, false, 0⟩

/-- Frame 00:36:00:00. -/
def frame_00_36_00 : LTCFrameExt := ⟨⟨0, 36, 0, 0⟩, false, 0⟩

/-- Frame 01:49:00:00, absolute minute 109. -/
def frame_01_49_00 : LTCFrameExt := ⟨⟨1, 49, 0, 0⟩, false, 0⟩

/-- Frame 02:00:00:00, absolute minute 120. -/
def frame_02_00_00 : LTCFrameExt := ⟨⟨2, 0, 0, 0⟩, false, 0⟩

/-- Frame 02:00:00:01, the frame after `frame_02_00_00`. -/
def frame_02_00_00_01 : LTCFrameExt := ⟨⟨2, 0, 0, 1⟩, false, 0⟩

/-- Frame 02:01:00:00 with the drop-frame bit set, absolute minute 121. -/
def frame_02_01_00 : LTCFrameExt := ⟨⟨2, 1, 0, 0⟩, true, 0⟩

/-! ## The table-building loop: lemmas -/

/-- The function `fill` obeys the equation of the source loop
`for (; j < ends; j++) partmap[j] = &parts[i];`. -/
theorem fill_loop (i : Nat) (ends j : Int) (st : BuildState) :
    fill i ends j st =
      if j < ends then fill i ends (j + 1) (store st j (some i)) else st := by
  unfold fill
  by_cases h : j < ends
  · rw [if_pos h]
    obtain ⟨n, hn⟩ : ∃ n : Nat, (ends - j).toNat = n + 1 := ⟨(ends - j).toNat - 1, by omega⟩
    have h2 : (ends - (j + 1)).toNat = n := by omega
    rw [hn, h2]
    rfl
  · rw [if_neg h]
    have h2 : (ends - j).toNat = 0 := by omega
    rw [h2]
    rfl

theorem store_length (st : BuildState) (j : Int) (p : Ptr) :
    (store st j p).partmap.length = st.partmap.length := by
  unfold store
  split <;> simp

theorem store_getElem? (st : BuildState) (j : Int) (p : Ptr) (m : Nat)
    (hm : m < st.partmap.length) (hlen : st.partmap.length = NR_OF_MINUTES) :
    (store st j p).partmap[m]? = if j = (m : Int) then some p else st.partmap[m]? := by
  unfold store
  split
  · rename_i h
    simp only [List.getElem?_set]
    by_cases hj : j = (m : Int)
    · subst hj
      simp [hm]
    · have : j.toNat ≠ m := by omega
      simp [this, hj]
  · rename_i h
    have : j ≠ (m : Int) := by
      intro hj
      apply h
      subst hj
      rw [hlen] at hm
      exact ⟨by omega, by exact_mod_cast hm⟩
    simp [this]

theorem fillFrom_length (i : Nat) (n : Nat) : ∀ (j : Int) (st : BuildState),
    (fillFrom i j n st).partmap.length = st.partmap.length := by
  induction n with
  | zero => intro j st; rfl
  | succ n ih => intro j st; simp [fillFrom, ih, store_length]

theorem fillFrom_getElem? (i : Nat) (n : Nat) : ∀ (j : Int) (st : BuildState) (m : Nat),
    m < st.partmap.length → st.partmap.length = NR_OF_MINUTES →
    (fillFrom i j n st).partmap[m]? =
      if j ≤ (m : Int) ∧ (m : Int) < j + (n : Int) then some (some i) else st.partmap[m]? := by
  induction n with
  | zero =>
    intro j st m _ _
    have h : ¬ (j ≤ (m : Int) ∧ (m : Int) < j + ((0 : Nat) : Int)) := by omega
    rw [if_neg h]
    rfl
  | succ n ih =>
    intro j st m hm hlen
    simp only [fillFrom]
    rw [ih (j + 1) (store st j (some i)) m (by rw [store_length]; exact hm)
      (by rw [store_length]; exact hlen), store_getElem? st j (some i) m hm hlen]
    by_cases h1 : j = (m : Int)
    · have h2 : j ≤ (m : Int) ∧ (m : Int) < j + ((n + 1 : Nat) : Int) := by
        constructor <;> omega
      have h4 : ¬ (j + 1 ≤ (m : Int) ∧ (m : Int) < j + 1 + (n : Int)) := by omega
      rw [if_pos h2, if_neg h4, if_pos h1]
    · by_cases h2 : j + 1 ≤ (m : Int) ∧ (m : Int) < j + 1 + (n : Int)
      · have h3 : j ≤ (m : Int) ∧ (m : Int) < j + ((n + 1 : Nat) : Int) := by
          constructor <;> omega
        rw [if_pos h2, if_pos h3]
      · have h3 : ¬ (j ≤ (m : Int) ∧ (m : Int) < j + ((n + 1 : Nat) : Int)) := by
          omega
        rw [if_neg h2, if_neg h3, if_neg h1]

theorem buildStep_length (ps : List event) (st : BuildState) (i : Nat) :
    (buildStep ps st i).partmap.length = st.partmap.length := by
  simp [buildStep, fill, fillFrom_length]

theorem buildStep_getElem? (ps : List event) (st : BuildState) (i m : Nat)
    (hm : m < st.partmap.length) (hlen : st.partmap.length = NR_OF_MINUTES) :
    (buildStep ps st i).partmap[m]? =
      if startAt ps i ≤ (m : Int) ∧ (m : Int) < endsAt ps i then some (some i)
      else st.partmap[m]? := by
  simp only [buildStep, fill]
  rw [fillFrom_getElem? i _ _ st m hm hlen]
  have : ∀ a b : Int, (a ≤ (m : Int) ∧ (m : Int) < a + ((b - a).toNat : Int)) ↔
      (a ≤ (m : Int) ∧ (m : Int) < b) := by
    intro a b; omega
  simp only [this, endsAt]

/-- The list `parts` has `NR_OF_PARTS` records, so `build parts` runs the outer loop of
`main` for `i = 0 .. NR_OF_PARTS - 1`. -/
theorem parts_length : parts.length = NR_OF_PARTS := rfl

theorem foldl_buildStep_inv (ps : List event) (m : Nat) (hm : m < NR_OF_MINUTES) (n : Nat) :
    ((List.range n).foldl (buildStep ps) ⟨partmap0, []⟩).partmap.length = NR_OF_MINUTES ∧
    ((∀ i, i < n → ¬ covers ps i m) →
      ((List.range n).foldl (buildStep ps) ⟨partmap0, []⟩).partmap[m]? = some none) ∧
    (∀ i, i < n → covers ps i m → (∀ k, i < k → k < n → ¬ covers ps k m) →
      ((List.range n).foldl (buildStep ps) ⟨partmap0, []⟩).partmap[m]? = some (some i)) := by
  induction n with
  | zero =>
    refine ⟨by simp [partmap0], fun _ => ?_, fun i hi => absurd hi (Nat.not_lt_zero i)⟩
    simp [partmap0, List.getElem?_replicate, hm]
  | succ n ih =>
    obtain ⟨hlen, hnone, hsome⟩ := ih
    rw [List.range_succ, List.foldl_append]
    simp only [List.foldl_cons, List.foldl_nil]
    have hm2 : m < ((List.range n).foldl (buildStep ps) ⟨partmap0, []⟩).partmap.length := by
      rw [hlen]; exact hm
    rw [buildStep_length, buildStep_getElem? ps _ n m hm2 hlen]
    refine ⟨hlen, ?_, ?_⟩
    · intro hno
      have hn : ¬ (startAt ps n ≤ (m : Int) ∧ (m : Int) < endsAt ps n) :=
        hno n (Nat.lt_succ_self n)
      rw [if_neg hn]
      exact hnone (fun i hi => hno i (Nat.lt_succ_of_lt hi))
    · intro i hi hcov hlast
      by_cases hin : i = n
      · subst hin
        have hc : startAt ps i ≤ (m : Int) ∧ (m : Int) < endsAt ps i := hcov
        rw [if_pos hc]
      · have hi2 : i < n := by omega
        have hn : ¬ (startAt ps n ≤ (m : Int) ∧ (m : Int) < endsAt ps n) :=
          hlast n hi2 (Nat.lt_succ_self n)
        rw [if_neg hn]
        exact hsome i hi2 hcov (fun k hk hkn => hlast k hk (Nat.lt_succ_of_lt hkn))

/-- The table and the out-of-array stores that the loop of `main` yields on `parts`. -/
theorem build_parts_eq : build parts =
    ⟨List.replicate 8 (some 0) ++ List.replicate 3 (some 1) ++ List.replicate 4 (some 2) ++
      List.replicate 8 (some 3) ++ List.replicate 8 (some 4) ++ List.replicate 5 (some 5) ++
      List.replicate 4 (some 6) ++ List.replicate 10 (some 7) ++ List.replicate 8 (some 8) ++
      List.replicate 6 (some 9) ++ List.replicate 6 (some 10) ++ List.replicate 40 (some 11),
     [110, 111, 112, 113, 114, 115, 116, 117, 118, 119]⟩ := by
  decide

theorem partmap_fin : ∀ m : Fin 110, ∃ i : Fin 12,
    (build parts).partmap[m.val]? = some (some i.val) ∧
      startAt parts i.val ≤ (m.val : Int) ∧
      (∀ k : Fin 12, startAt parts k.val ≤ (m.val : Int) →
        startAt parts k.val ≤ startAt parts i.val) ∧
      (i.val + 1 < NR_OF_PARTS → (m.val : Int) < startAt parts (i.val + 1)) ∧
      (i.val + 1 = NR_OF_PARTS → 70 ≤ m.val) ∧
      (∀ k : Fin 12, startAt parts k.val ≤ (m.val : Int) →
        (k.val + 1 < NR_OF_PARTS → (m.val : Int) < startAt parts (k.val + 1)) → k.val = i.val) ∧
      (m.val ≤ 7 → i.val = 0) ∧ (8 ≤ m.val → m.val ≤ 10 → i.val = 1) ∧
      (31 ≤ m.val → m.val ≤ 35 → i.val = 5) ∧ (70 ≤ m.val → i.val = 11) := by
  rw [build_parts_eq]
  decide

/-! ## The table-building loop: claims -/

/-- C1. After the table-building loop of `main` has run over `parts`, every minute
`m < NR_OF_MINUTES` has in `partmap[m]` the address of one segment `i` of `parts`; its
start is at most `m` and is the greatest start at most `m`; `m` lies below the next start,
the last segment taking every minute from 70 on; `i` is the only segment whose interval
holds `m`; minutes 0..7 give segment 0, minutes 8..10 segment 1, minutes 31..35
segment 5. -/
theorem partmap_resolves_greatest_start (m : Nat) (hm : m < NR_OF_MINUTES) :
    ∃ i, i < NR_OF_PARTS ∧ (build parts).partmap[m]? = some (some i) ∧
      startAt parts i ≤ (m : Int) ∧
      (∀ k, k < NR_OF_PARTS → startAt parts k ≤ (m : Int) →
        startAt parts k ≤ startAt parts i) ∧
      (i + 1 < NR_OF_PARTS → (m : Int) < startAt parts (i + 1)) ∧
      (i + 1 = NR_OF_PARTS → 70 ≤ m) ∧
      (∀ k, k < NR_OF_PARTS → startAt parts k ≤ (m : Int) →
        (k + 1 < NR_OF_PARTS → (m : Int) < startAt parts (k + 1)) → k = i) ∧
      (m ≤ 7 → i = 0) ∧ (8 ≤ m → m ≤ 10 → i = 1) ∧
      (31 ≤ m → m ≤ 35 → i = 5) ∧ (70 ≤ m → i = 11) := by
  obtain ⟨i, h1, h2, h3, h4, h5, h6, h7⟩ := partmap_fin ⟨m, hm⟩
  exact ⟨i.val, i.isLt, h1, h2, fun k hk => h3 ⟨k, hk⟩, h4, h5, fun k hk => h6 ⟨k, hk⟩, h7⟩

/-- C1, at minute 33: `partmap[33]` is the address of segment 5, whose start 31 is the
greatest start at most 33. -/
theorem partmap_resolves_greatest_start_witness :
    33 < NR_OF_MINUTES ∧
    ∃ i, i < NR_OF_PARTS ∧ (build parts).partmap[33]? = some (some i) ∧
      startAt parts i ≤ ((33 : Nat) : Int) ∧
      (∀ k, k < NR_OF_PARTS → startAt parts k ≤ ((33 : Nat) : Int) →
        startAt parts k ≤ startAt parts i) ∧
      (i + 1 < NR_OF_PARTS → ((33 : Nat) : Int) < startAt parts (i + 1)) ∧
      (i + 1 = NR_OF_PARTS → 70 ≤ 33) ∧
      (∀ k, k < NR_OF_PARTS → startAt parts k ≤ ((33 : Nat) : Int) →
        (k + 1 < NR_OF_PARTS → ((33 : Nat) : Int) < startAt parts (k + 1)) → k = i) ∧
      (33 ≤ 7 → i = 0) ∧ (8 ≤ 33 → 33 ≤ 10 → i = 1) ∧
      (31 ≤ 33 → 33 ≤ 35 → i = 5) ∧ (70 ≤ 33 → i = 11) :=
  ⟨by decide, partmap_resolves_greatest_start 33 (by decide)⟩

/-- C5, as the code has it. The table-building loop has no error result: for every
segment list, with or without a gap or an overlap, it yields a table of `NR_OF_MINUTES`
slots. Slot `m` stays `NULL` when no segment's interval holds `m`, and else holds the
address of the last-listed segment whose interval holds `m`. -/
theorem build_fills_last_cover (ps : List event) (m : Nat) (hm : m < NR_OF_MINUTES) :
    (build ps).partmap.length = NR_OF_MINUTES ∧
    ((∀ i, i < ps.length → ¬ covers ps i m) → (build ps).partmap[m]? = some none) ∧
    (∀ i, i < ps.length → covers ps i m →
      (∀ k, i < k → k < ps.length → ¬ covers ps k m) →
      (build ps).partmap[m]? = some (some i)) :=
  foldl_buildStep_inv ps m hm ps.length

/-- C5 amended, at the list with a gap and minute 0: the loop yields a table whose slot 0
is `NULL`. -/
theorem build_fills_last_cover_witness :
    0 < NR_OF_MINUTES ∧ (build gapList).partmap.length = NR_OF_MINUTES ∧
      (build gapList).partmap[0]? = some none :=
  ⟨by decide, (build_fills_last_cover gapList 0 (by decide)).1,
    (build_fills_last_cover gapList 0 (by decide)).2.1 (by
      intro i hi
      have hi0 : i = 0 := by
        have : i < 1 := hi
        omega
      subst hi0
      unfold covers
      decide)⟩

/-- C5 as stated fails: on a list with a gap the loop yields a table with unfilled slots,
and on a list with an overlap it yields a table in which a later segment has overwritten
slot 5, filled before by segment 0. -/
theorem build_accepts_gap_and_overlap :
    gapOrOverlap gapList ∧
    (build gapList).partmap[0]? = some none ∧ (build gapList).partmap[1]? = some none ∧
    (build gapList).partmap[2]? = some (some 0) ∧
    gapOrOverlap overlapList ∧
    (buildStep overlapList ⟨partmap0, []⟩ 0).partmap[5]? = some (some 0) ∧
    (build overlapList).partmap[5]? = some (some 2) :=
  ⟨Or.inl (by decide), by decide, by decide, by decide,
    Or.inr ⟨1, by decide, by decide⟩, by decide, by decide⟩

/-! ## The loop body of `my_decoder_read`: lemmas -/

theorem currentMin_eq (f : LTCFrameExt) : currentMin f = f.stime.hours * 60 + f.stime.mins := by
  unfold currentMin
  omega

theorem frameBody_rejected (ps : List event) (pm : List Ptr) (f : LTCFrameExt)
    (h : ¬ inRange (currentMin f)) : frameBody ps pm f = ⟨clockCmds f, none⟩ := by
  unfold frameBody
  simp only [if_neg h]

theorem frameBody_out_clock (ps : List event) (pm : List Ptr) (f : LTCFrameExt) :
    ∃ rest, (frameBody ps pm f).out = clockCmds f ++ rest := by
  unfold frameBody
  simp only
  split
  · split
    · exact ⟨[], by simp⟩
    · split
      · exact ⟨[], by simp⟩
      · split
        · exact ⟨_, rfl⟩
        · exact ⟨_, List.append_assoc _ _ _⟩
  · exact ⟨[], by simp⟩

theorem tmod_two_eq_zero_iff (s : Int) : s.tmod 2 = 0 ↔ s % 2 = 0 := by
  rw [← Int.dvd_iff_tmod_eq_zero, ← Int.dvd_iff_emod_eq_zero]

theorem load_ok (pm : List Ptr) (m : Nat) (p : Ptr) (h : m < NR_OF_MINUTES)
    (hp : pm[m]? = some p) : load pm (m : Int) = .ok p := by
  unfold load
  have hr : 0 ≤ (m : Int) ∧ (m : Int) < (NR_OF_MINUTES : Int) :=
    ⟨Int.ofNat_nonneg m, by exact_mod_cast h⟩
  rw [if_pos hr, Int.toNat_ofNat, hp]

theorem my_decoder_read_split (ps : List event) (pm : List Ptr) (q : List LTCFrameExt) :
    (my_decoder_read ps pm q).processed ++ (my_decoder_read ps pm q).queue = q := by
  induction q with
  | nil => rfl
  | cons f q ih =>
    unfold my_decoder_read
    simp only
    split
    · rfl
    · simp only [List.cons_append, ih]

theorem my_decoder_read_no_fault (ps : List event) (pm : List Ptr) (q : List LTCFrameExt)
    (h : (my_decoder_read ps pm q).fault = none) :
    (my_decoder_read ps pm q).processed = q ∧ (my_decoder_read ps pm q).queue = [] := by
  induction q with
  | nil => exact ⟨rfl, rfl⟩
  | cons f q ih =>
    unfold my_decoder_read at h ⊢
    simp only at h ⊢
    split at h
    · cases h
    · rename_i hf
      simp only [hf]
      exact ⟨by rw [(ih h).1], (ih h).2⟩

/-- The function `my_decoder_read` is the loop `while (ltc_decoder_read(d, &frame))`. -/
theorem my_decoder_read_loop (ps : List event) (pm : List Ptr) (q : List LTCFrameExt) :
    my_decoder_read ps pm q =
      match ltc_decoder_read q with
      | none => ⟨[.refresh, .fflush], [], [], none⟩
      | some (f, r) =>
        match (frameBody ps pm f).fault with
        | some e => ⟨(frameBody ps pm f).out, [f], r, some e⟩
        | none =>
          ⟨(frameBody ps pm f).out ++ (my_decoder_read ps pm r).out,
           f :: (my_decoder_read ps pm r).processed,
           (my_decoder_read ps pm r).queue, (my_decoder_read ps pm r).fault⟩ := by
  cases q with
  | nil => rfl
  | cons f r =>
    simp only [ltc_decoder_read]
    rw [my_decoder_read]

/-! ## The loop body of `my_decoder_read`: claims -/

/-- C2 fails on the code at absolute minute 120. Frame 02:00:00:00 has
`currentMin = 120`; the range check `currentMin <= 120 && currentMin >= 0` accepts it,
and the body goes on to load `partmap[120]`, a slot the build never filled and that lies
outside the array; the frame is not handled as a rejected frame is. -/
theorem minute_120_not_rejected :
    currentMin frame_02_00_00 = 120 ∧ inRange (currentMin frame_02_00_00) ∧
    frameBody parts builtPartmap frame_02_00_00 =
      ⟨clockCmds frame_02_00_00, some (.outOfBounds 120)⟩ ∧
    frameBody parts builtPartmap frame_02_00_00 ≠ ⟨clockCmds frame_02_00_00, none⟩ ∧
    frameBody parts builtPartmap frame_02_01_00 = ⟨clockCmds frame_02_01_00, none⟩ := by
  decide

/-- C9 fails on the code. The range check accepts minute 120, whose loads are of slot 120
(and 121), and minute 109, whose second load is of slot 110: all outside the
`NR_OF_MINUTES = 110` slots of `partmap`. The table-building loop stores to slots
110..119, outside the array as well. -/
theorem accepted_minute_reads_outside_table :
    inRange (currentMin frame_02_00_00) ∧
    ¬ (currentMin frame_02_00_00 < (NR_OF_MINUTES : Int)) ∧
    load builtPartmap (currentMin frame_02_00_00) = .error (.outOfBounds 120) ∧
    load builtPartmap (currentMin frame_02_00_00 + 1) = .error (.outOfBounds 121) ∧
    (frameBody parts builtPartmap frame_02_00_00).fault = some (.outOfBounds 120) ∧
    inRange (currentMin frame_01_49_00) ∧
    load builtPartmap (currentMin frame_01_49_00) = .ok (some 11) ∧
    load builtPartmap (currentMin frame_01_49_00 + 1) = .error (.outOfBounds 110) ∧
    (frameBody parts builtPartmap frame_01_49_00).fault = some (.outOfBounds 110) ∧
    (build parts).oob = [110, 111, 112, 113, 114, 115, 116, 117, 118, 119] := by
  decide

/-- C3. For a frame whose minute `m` and next minute `m + 1` are both tabulated (slot `m`
holds the address of segment `a`, slot `m + 1` that of segment `b`), the body renders the
clock, then the countdown line exactly when `a` and `b` differ, then the section, notes
and ends-with lines of segment `a`. The countdown line prints `60 - secs`, and the
highlight `attron(COLOR_PAIR(1))` is switched on exactly when the countdown is rendered
and `secs` is even. -/
theorem frameBody_tabulated (ps : List event) (pm : List Ptr) (f : LTCFrameExt)
    (m a b : Nat) (e : event)
    (hmin : currentMin f = (m : Int)) (hnext : m + 1 < NR_OF_MINUTES)
    (ha : pm[m]? = some (some a)) (hb : pm[m + 1]? = some (some b))
    (he : ps[a]? = some e) :
    frameBody ps pm f =
      ⟨clockCmds f ++ (if a ≠ b then countdownCmds f.stime.secs else []) ++ sectionCmds e,
       none⟩ ∧
    (∀ fmt args, Cmd.mvprintw 2 0 fmt args ∈ (frameBody ps pm f).out ↔
      a ≠ b ∧ fmt = "time remaining: %02d " ∧ args = [.int (60 - f.stime.secs)]) ∧
    (Cmd.attron 1 ∈ (frameBody ps pm f).out ↔ a ≠ b ∧ f.stime.secs % 2 = 0) ∧
    sectionCmds e =
      [ .mvprintw 3 0 "section: %s" [.str e.sectionName],
        .mvprintw 4 0 "notes: %s" [.str e.notes],
        .attron 2,
        .mvprintw 5 0 "ends with: %s" [.str e.endsWith],
        .attroff 2 ] := by
  have hr : inRange (currentMin f) := by
    rw [hmin]
    unfold inRange
    have : (NR_OF_MINUTES : Int) = 110 := rfl
    have h2 : ((m + 1 : Nat) : Int) < (NR_OF_MINUTES : Int) := by exact_mod_cast hnext
    constructor <;> push_cast at h2 <;> omega
  have hbody : frameBody ps pm f =
      ⟨clockCmds f ++ (if a ≠ b then countdownCmds f.stime.secs else []) ++ sectionCmds e,
       none⟩ := by
    have h1 := load_ok pm m (some a) (by omega) ha
    have h2 := load_ok pm (m + 1) (some b) hnext hb
    have h3 : ((m + 1 : Nat) : Int) = (m : Int) + 1 := by push_cast; rfl
    rw [h3] at h2
    unfold frameBody
    simp only [if_pos hr]
    rw [hmin]
    simp only [h1, h2, deref, he]
    by_cases hab : a = b
    · simp [hab]
    · have : (some a : Ptr) ≠ some b := by
        intro h
        exact hab (Option.some.inj h)
      simp [hab, this]
  refine ⟨hbody, ?_, ?_, rfl⟩
  · intro fmt args
    rw [hbody]
    by_cases hab : a = b
    · simp [hab, clockCmds, sectionCmds]
    · simp only [ne_eq, hab, not_false_eq_true, if_true, true_and]
      by_cases hs : f.stime.secs.tmod 2 = 0
      · simp [clockCmds, sectionCmds, countdownCmds, hs]
      · simp [clockCmds, sectionCmds, countdownCmds, hs]
  · rw [hbody, ← tmod_two_eq_zero_iff]
    by_cases hab : a = b
    · simp [hab, clockCmds, sectionCmds]
    · by_cases hs : f.stime.secs.tmod 2 = 0
      · simp [clockCmds, sectionCmds, countdownCmds, hs, hab]
      · simp [clockCmds, sectionCmds, countdownCmds, hs, hab]

/-- C3 on the built-in schedule (segment 5 covers minutes 31..35, segment 6 starts at
36): frame 00:35:58 gets the countdown 2 with the highlight on and the fields of segment
5; frame 00:36:00 gets no countdown, no highlight, and the fields of segment 6. -/
theorem frameBody_tabulated_witness :
    (currentMin frame_00_35_58 = ((35 : Nat) : Int) ∧ 35 + 1 < NR_OF_MINUTES ∧
      builtPartmap[35]? = some (some 5) ∧ builtPartmap[35 + 1]? = some (some 6)) ∧
    frameBody parts builtPartmap frame_00_35_58 =
      ⟨clockCmds frame_00_35_58 ++
        [.attron 1, .mvprintw 2 0 "time remaining: %02d " [.int 2], .attroff 1] ++
        sectionCmds ⟨5, 31, "benoit + morgan", "silence", "BREAK"⟩, none⟩ ∧
    (currentMin frame_00_36_00 = ((36 : Nat) : Int) ∧
      builtPartmap[36]? = some (some 6) ∧ builtPartmap[36 + 1]? = some (some 6)) ∧
    frameBody parts builtPartmap frame_00_36_00 =
      ⟨clockCmds frame_00_36_00 ++
        sectionCmds ⟨6, 36, "benoit + morgan again", "silence", "cont."⟩, none⟩ ∧
    Cmd.attron 1 ∉ (frameBody parts builtPartmap frame_00_36_00).out :=
  ⟨⟨by decide, by decide, by decide, by decide⟩,
    (frameBody_tabulated parts builtPartmap frame_00_35_58 35 5 6
      ⟨5, 31, "benoit + morgan", "silence", "BREAK"⟩
      (by decide) (by decide) (by decide) (by decide) (by decide)).1.trans (by decide),
    ⟨by decide, by decide, by decide⟩,
    (frameBody_tabulated parts builtPartmap frame_00_36_00 36 6 6
      ⟨6, 36, "benoit + morgan again", "silence", "cont."⟩
      (by decide) (by decide) (by decide) (by decide) (by decide)).1.trans (by decide),
    fun h => absurd ((frameBody_tabulated parts builtPartmap frame_00_36_00 36 6 6
      ⟨6, 36, "benoit + morgan again", "silence", "cont."⟩
      (by decide) (by decide) (by decide) (by decide) (by decide)).2.2.1.mp h).1 (by decide)⟩

/-- C4. For every frame the loop reads, whatever its minute and whatever the schedule
table holds, the body first renders the title and the clock line built from the hours,
mins, secs and frame count of the frame, with `.` before the frame count when the
drop-frame bit is set and `:` otherwise; these calls are the same for every table; and
when the range check rejects the minute they are all the body renders. -/
theorem clock_line_always (ps : List event) (pm : List Ptr) (f : LTCFrameExt) :
    (∃ rest, (frameBody ps pm f).out = clockCmds f ++ rest) ∧
    (∀ q, ∃ rest, (my_decoder_read ps pm (f :: q)).out = clockCmds f ++ rest) ∧
    clockCmds f =
      [ .erase, .attron 3, .mvprintw 0 0 "%s" [.str "RT60 - TIMECODE"], .attroff 3,
        .mvprintw 1 0 "%02d:%02d:%02d%c%02d | %.1fdB\n"
          [.int f.stime.hours, .int f.stime.mins, .int f.stime.secs,
           .chr (if f.dfbit then '.' else ':'), .int f.stime.frame, .dbl f.volume] ] ∧
    (∀ ps2 pm2, (frameBody ps2 pm2 f).out.take 5 = (frameBody ps pm f).out.take 5) ∧
    (¬ inRange (currentMin f) → frameBody ps pm f = ⟨clockCmds f, none⟩) := by
  have htake : ∀ ps1 pm1, (frameBody ps1 pm1 f).out.take 5 = clockCmds f := by
    intro ps1 pm1
    obtain ⟨rest, hrest⟩ := frameBody_out_clock ps1 pm1 f
    rw [hrest]
    simp [clockCmds]
  refine ⟨frameBody_out_clock ps pm f, ?_, rfl, ?_, frameBody_rejected ps pm f⟩
  · intro q
    obtain ⟨rest, hrest⟩ := frameBody_out_clock ps pm f
    rw [my_decoder_read]
    simp only
    split
    · exact ⟨rest, hrest⟩
    · exact ⟨rest ++ (my_decoder_read ps pm q).out, by
        simp only [hrest, List.append_assoc]⟩
  · intro ps2 pm2
    rw [htake, htake]

/-- C4 at frame 02:01:00:00 (minute 121, drop-frame bit set): the range check rejects it
and the body renders the title and the clock line only. -/
theorem clock_line_always_witness :
    ¬ inRange (currentMin frame_02_01_00) ∧
    frameBody parts builtPartmap frame_02_01_00 =
      ⟨[ .erase, .attron 3, .mvprintw 0 0 "%s" [.str "RT60 - TIMECODE"], .attroff 3,
         .mvprintw 1 0 "%02d:%02d:%02d%c%02d | %.1fdB\n"
           [.int 2, .int 1, .int 0, .chr '.', .int 0, .dbl 0] ], none⟩ :=
  ⟨by decide,
    (clock_line_always parts builtPartmap frame_02_01_00).2.2.2.2 (by decide)⟩

/-- C10 fails on the code. With the frames 02:00:00:00 and 02:00:00:01 queued, the call
of `my_decoder_read` reads the first frame, passes the range check with minute 120 and
faults on the load of `partmap[120]`; the second frame is never read and stays queued. -/
theorem drain_stops_at_minute_120 :
    my_decoder_read parts builtPartmap [frame_02_00_00, frame_02_00_00_01] =
      ⟨clockCmds frame_02_00_00, [frame_02_00_00], [frame_02_00_00_01],
       some (.outOfBounds 120)⟩ := by
  decide

/-! ## Wake coordination: claims -/

/-- C7. The notification part of `process` only tries the lock. When the mutex is free it
emits exactly one `pthread_cond_signal` and leaves the mutex free; when the mutex is held
it emits no signal and changes nothing; in both cases it returns 0 and leaves
`keep_running` as it was. The whole callback `process` does the same on those fields. -/
theorem notify_never_blocks (st : Sync) :
    (notify st).1 = 0 ∧
    (notify st).2.1.keep_running = st.keep_running ∧
    (notify st).2.1.mutex = st.mutex ∧
    ((pthread_mutex_trylock st.mutex).1 = 0 ↔ st.mutex = .free) ∧
    (st.mutex = .free →
      (notify st).2.2 = [.cond_signal] ∧ (notify st).2.1.mutex = .free) ∧
    (st.mutex = .held → (notify st).2.2 = [] ∧ (notify st).2.1 = st) ∧
    (∀ w, (process w st).1 = 0 ∧
      (process w st).2.1.keep_running = st.keep_running ∧
      (process w st).2.1.mutex = st.mutex ∧
      (process w st).2.2 = (notify st).2.2) := by
  obtain ⟨kr, mu, pc, q, po, sc, fa, sh⟩ := st
  cases mu
  · by_cases hpc : pc = .waiting
    · subst hpc
      simp [notify, process, pthread_mutex_trylock, pthread_cond_signal]
    · simp [notify, process, pthread_mutex_trylock, pthread_cond_signal, hpc]
  · simp [notify, process, pthread_mutex_trylock]

/-- C7 at a state with the mutex free and the consumer suspended, and at the same state
with the mutex held. -/
theorem notify_never_blocks_witness :
    ((⟨1, .free, .waiting, [], [], [], none, true⟩ : Sync).mutex = .free ∧
      (notify ⟨1, .free, .waiting, [], [], [], none, true⟩).2.2 = [.cond_signal] ∧
      (notify ⟨1, .free, .waiting, [], [], [], none, true⟩).2.1.mutex = .free) ∧
    ((⟨1, .held, .drain, [], [], [], none, true⟩ : Sync).mutex = .held ∧
      (notify ⟨1, .held, .drain, [], [], [], none, true⟩).2.2 = [] ∧
      (notify ⟨1, .held, .drain, [], [], [], none, true⟩).2.1 =
        ⟨1, .held, .drain, [], [], [], none, true⟩) :=
  ⟨⟨rfl, (notify_never_blocks ⟨1, .free, .waiting, [], [], [], none, true⟩).2.2.2.2.1 rfl⟩,
    ⟨rfl, (notify_never_blocks ⟨1, .held, .drain, [], [], [], none, true⟩).2.2.2.2.2.1 rfl⟩⟩

theorem main_loop_run_done (ps : List event) (pm : List Ptr) (st : Sync)
    (h : st.pc = .done) : ∀ n, main_loop_run ps pm n st = st := by
  intro n
  induction n with
  | zero => rfl
  | succ n ih =>
    have hs : main_loop_step ps pm st = st := by
      unfold main_loop_step
      rw [h]
    rw [main_loop_run, hs, ih]

/-- C8. In the step model of `main_loop`: when `keep_running` is 0 on entry or at the
check that follows a wake, the loop exits within two steps with the mutex released and
with the queue and the frames popped so far unchanged, and stays exited; a frame is
popped only by the drain step, which is entered only from a check that saw
`keep_running` non-zero; no step of the loop and no call of `process` changes
`keep_running`. The shutdown handlers `catchsig` and `jack_shutdown` set `keep_running`
to 0 and signal; run while the loop is suspended in the wait they wake it and the loop
exits within two steps, whatever the queue holds; a later notification wakes a loop that
suspended after the shutdown; and running a shutdown handler twice leaves the state that
running it once leaves. -/
theorem main_loop_exits_once_not_running (ps : List event) (pm : List Ptr) (st : Sync) :
    (st.keep_running = 0 → (st.pc = .entry ∨ st.pc = .woken) →
      main_loop_run ps pm 2 st = { st with mutex := .free, pc := .done } ∧
      ∀ n, main_loop_run ps pm (2 + n) st = { st with mutex := .free, pc := .done }) ∧
    (st.keep_running = 0 → st.pc = .check →
      main_loop_step ps pm st = { st with mutex := .free, pc := .done }) ∧
    (st.pc ≠ .drain →
      (main_loop_step ps pm st).popped = st.popped ∧
      (main_loop_step ps pm st).queue = st.queue) ∧
    ((main_loop_step ps pm st).pc = .drain → st.pc = .check ∧ st.keep_running ≠ 0) ∧
    ((main_loop_step ps pm st).keep_running = st.keep_running ∧
      ∀ w, (process w st).2.1.keep_running = st.keep_running) ∧
    ((catchsig st).1.keep_running = 0 ∧ Event.cond_signal ∈ (catchsig st).2 ∧
      (jack_shutdown st).1.keep_running = 0 ∧ Event.cond_signal ∈ (jack_shutdown st).2) ∧
    (st.pc = .waiting →
      main_loop_run ps pm 2 (catchsig st).1 =
        { st with sighup := true, keep_running := 0, mutex := .free, pc := .done } ∧
      main_loop_run ps pm 2 (jack_shutdown st).1 =
        { st with keep_running := 0, mutex := .free, pc := .done }) ∧
    (st.pc = .waiting → st.mutex = .free → (notify st).2.1.pc = .woken) ∧
    ((catchsig (catchsig st).1).1 = (catchsig st).1 ∧
      (jack_shutdown (jack_shutdown st).1).1 = (jack_shutdown st).1 ∧
      (jack_shutdown (catchsig st).1).1 = (catchsig st).1) := by
  obtain ⟨kr, mu, pc, q, po, sc, fa, sh⟩ := st
  refine ⟨?_, ?_, ?_, ?_, ?_, ?_, ?_, ?_, ?_⟩
  · intro hk hpc
    simp only at hk hpc
    subst hk
    have h2 : main_loop_run ps pm 2 ⟨0, mu, pc, q, po, sc, fa, sh⟩ =
        ⟨0, .free, .done, q, po, sc, fa, sh⟩ := by
      rcases hpc with h | h <;> subst h <;> simp [main_loop_run, main_loop_step]
    refine ⟨h2, ?_⟩
    intro n
    have h3 : ∀ a b (s : Sync), main_loop_run ps pm (a + b) s =
        main_loop_run ps pm b (main_loop_run ps pm a s) := by
      intro a
      induction a with
      | zero => intro b s; simp [main_loop_run]
      | succ a ih =>
        intro b s
        rw [Nat.succ_add, main_loop_run, main_loop_run, ih]
    rw [h3, h2]
    exact main_loop_run_done ps pm _ rfl n
  · intro hk hpc
    simp only at hk hpc
    subst hk
    subst hpc
    simp [main_loop_step]
  · intro hpc
    cases pc <;> simp [main_loop_step] at hpc ⊢
    split <;> simp
  · intro h
    cases pc <;> simp [main_loop_step] at h ⊢
    · split at h
      · simp at h
      · assumption
    · split at h <;> simp at h
  · refine ⟨?_, ?_⟩
    · cases pc <;> simp [main_loop_step]
      · split <;> simp
      · split <;> simp
    · intro w
      cases mu
      · by_cases hpc : pc = .waiting
        · subst hpc
          simp [notify, process, pthread_mutex_trylock, pthread_cond_signal]
        · simp [notify, process, pthread_mutex_trylock, pthread_cond_signal, hpc]
      · simp [notify, process, pthread_mutex_trylock]
  · by_cases hpc : pc = .waiting
    · subst hpc
      simp [catchsig, jack_shutdown, pthread_cond_signal]
    · simp [catchsig, jack_shutdown, pthread_cond_signal, hpc]
  · intro hpc
    simp only at hpc
    subst hpc
    simp [catchsig, jack_shutdown, pthread_cond_signal, main_loop_run, main_loop_step]
  · intro hpc hmu
    simp only at hpc hmu
    subst hpc
    subst hmu
    simp [notify, pthread_mutex_trylock, pthread_cond_signal]
  · by_cases hpc : pc = .waiting
    · subst hpc
      simp [catchsig, jack_shutdown, pthread_cond_signal]
    · simp [catchsig, jack_shutdown, pthread_cond_signal, hpc]

/-- C8 at two states: a loop woken with `keep_running` 0 and a frame still queued exits
without popping it; a loop suspended with an empty queue exits after `catchsig`. -/
theorem main_loop_exits_once_not_running_witness :
    ((⟨0, .free, .woken, [frame_00_35_58], [], [], none, true⟩ : Sync).keep_running = 0 ∧
      main_loop_run parts builtPartmap 2
          ⟨0, .free, .woken, [frame_00_35_58], [], [], none, true⟩ =
        ⟨0, .free, .done, [frame_00_35_58], [], [], none, true⟩) ∧
    ((⟨1, .free, .waiting, [], [], [], none, true⟩ : Sync).pc = .waiting ∧
      main_loop_run parts builtPartmap 2
          (catchsig ⟨1, .free, .waiting, [], [], [], none, true⟩).1 =
        ⟨0, .free, .done, [], [], [], none, true⟩) :=
  ⟨⟨rfl, ((main_loop_exits_once_not_running parts builtPartmap
      ⟨0, .free, .woken, [frame_00_35_58], [], [], none, true⟩).1 rfl (Or.inr rfl)).1⟩,
    ⟨rfl, ((main_loop_exits_once_not_running parts builtPartmap
      ⟨1, .free, .waiting, [], [], [], none, true⟩).2.2.2.2.2.2.1 rfl).1⟩⟩

/-! ## The exit code of `main` -/

/-- C6, as the code has it. The return value of `main` is 0 whatever the initialization
steps return. When `init_jack`, `jack_portsetup` or `jack_activate` fails, `main` goes to
the cleanup without entering `main_loop`; `main_loop` is entered exactly when all three
succeed; the cleanup runs in every case. -/
theorem main_returns_zero_always (env : InitEnv) :
    (main env).2 = 0 ∧
    (Stage.main_loop ∈ (main env).1 ↔
      init_jack env = 0 ∧ jack_portsetup env = 0 ∧ env.jack_activate = 0) ∧
    (∃ pre, (main env).1 = pre ++ outStages env) := by
  unfold main
  by_cases h1 : init_jack env = 0
  · by_cases h2 : jack_portsetup env = 0
    · by_cases h3 : env.jack_activate = 0
      · refine ⟨by simp [h1, h2, h3], by simp [h1, h2, h3], ?_⟩
        simp only [h1, h2, h3, ne_eq, not_true_eq_false, if_false]
        exact ⟨_, rfl⟩
      · refine ⟨by simp [h1, h2, h3], ?_, ?_⟩
        · simp only [h1, h2, h3, ne_eq, not_true_eq_false, not_false_eq_true, if_true,
            if_false, and_false, and_true, iff_false]
          by_cases h4 : env.mlockall = 0 <;> by_cases h5 : env.jack_client_open <;>
            simp [h4, h5, outStages]
        · simp only [h1, h2, h3, ne_eq, not_true_eq_false, not_false_eq_true, if_true,
            if_false]
          exact ⟨_, rfl⟩
    · refine ⟨by simp [h1, h2], ?_, ?_⟩
      · by_cases h5 : env.jack_client_open <;> simp [h1, h2, h5, outStages]
      · simp only [h1, h2, ne_eq, not_true_eq_false, not_false_eq_true, if_true, if_false]
        exact ⟨_, rfl⟩
  · refine ⟨by simp [h1], ?_, ?_⟩
    · by_cases h5 : env.jack_client_open <;> simp [h1, h5, outStages]
    · simp only [h1, ne_eq, not_false_eq_true, if_true]
      exact ⟨_, rfl⟩

/-- C6 as stated fails: with `jack_client_open` failing `init_jack` returns -1 and `main`
returns 0; so it does when `jack_portsetup` fails (no port) and when `jack_activate`
fails. -/
theorem main_returns_zero_on_init_failure :
    (init_jack ⟨false, true, true, 0, 0⟩ ≠ 0 ∧ (main ⟨false, true, true, 0, 0⟩).2 = 0) ∧
    (jack_portsetup ⟨true, true, false, 0, 0⟩ ≠ 0 ∧
      (main ⟨true, true, false, 0, 0⟩).2 = 0) ∧
    ((⟨true, true, true, 0, 1⟩ : InitEnv).jack_activate ≠ 0 ∧
      (main ⟨true, true, true, 0, 1⟩).2 = 0) := by
  decide

end LtcScore
